import Mathlib

/-!
Verification development for the `markdown_translator` repository.

Two components are embedded shallowly:

* `protector.py` — `MarkdownProtector`, which masks YAML front matter,
  math blocks, fenced code blocks, indented blocks, pipe tables and HTML
  tags behind placeholder tokens and later restores them.
* `chunker.py` — `AdaptiveMarkdownChunker`, which partitions markdown into
  header-anchored segments, greedily merges them under a token budget and
  re-splits oversized buffers.

Text is modelled as `List Char`.  Each Python regular expression used by
the source is translated into an explicit scanning function; the intended
backtracking semantics of the concrete pattern is documented at each
definition.  The external collaborators of the chunker (the tiktoken
token-counting oracle, the `MarkdownHeaderTextSplitter` line partitioner
and the `RecursiveCharacterTextSplitter`) are not part of the repository;
they are modelled from the specification and marked as such.
-/

namespace MdT

abbrev Text := List Char

/-- A category's protected blocks: an association list from placeholder to
original span, in Python dict insertion order. -/
abbrev Blocks := List (Text × Text)

/-- Character at index `i`, with a null default (all uses are guarded). -/
def charAt (t : Text) (i : Nat) : Char := t.getD i (Char.ofNat 0)

/-- Python slice `t[a:b]` (with the usual clamping). -/
def slice (t : Text) (a b : Nat) : Text := (t.drop a).take (b - a)

/-- `t[:a] + rep + t[b:]`, the replacement step used by every pass. -/
def replaceRange (t : Text) (a b : Nat) (rep : Text) : Text :=
  t.take a ++ rep ++ t.drop b

/-- Boolean "is prefix of". -/
def isPre : Text → Text → Bool
  | [], _ => true
  | _ :: _, [] => false
  | a :: as, b :: bs => if a = b then isPre as bs else false

/-- Boolean "occurs as a contiguous substring". -/
def hasSub (pat : Text) : Text → Bool
  | [] => isPre pat []
  | c :: rest => isPre pat (c :: rest) || hasSub pat rest

def findSubAux (pat : Text) : Text → Nat → Option Nat
  | [], i => if pat = [] then some i else none
  | c :: rest, i => if isPre pat (c :: rest) then some i else findSubAux pat rest (i + 1)

/-- Python `t.find(pat, start)` (as an `Option`): index of the first
occurrence of `pat` at position `≥ start`. -/
def findSubFrom (t : Text) (pat : Text) (start : Nat) : Option Nat :=
  findSubAux pat (t.drop start) start

/-- ASCII lower-casing, the effect of Python `.lower()` / `re.IGNORECASE`
on the ASCII inputs considered here. -/
def lcChar (c : Char) : Char :=
  if 65 ≤ c.toNat ∧ c.toNat ≤ 90 then Char.ofNat (c.toNat + 32) else c

def lcText (t : Text) : Text := t.map lcChar

/-- Python `\w` restricted to ASCII: letter, digit or underscore. -/
def isWordChar (c : Char) : Bool :=
  (97 ≤ c.toNat && c.toNat ≤ 122) || (65 ≤ c.toNat && c.toNat ≤ 90) ||
  (48 ≤ c.toNat && c.toNat ≤ 57) || (c.toNat == 95)

/-- Python `\s`: space, tab, newline, carriage return, vertical tab, form feed. -/
def isSpacePy (c : Char) : Bool :=
  (c.toNat == 32) || (c.toNat == 9) || (c.toNat == 10) || (c.toNat == 13) ||
  (c.toNat == 11) || (c.toNat == 12)

/-- Decimal digits of `n`. -/
def natDigits (n : Nat) : Text := Nat.toDigits 10 n

/-- The indexed placeholder `__{cat}_{i}__` built by the f-strings in
`protector.py`. -/
def mkPh (cat : Text) (i : Nat) : Text :=
  "__".toList ++ cat ++ "_".toList ++ natDigits i ++ "__".toList

/-- Python `text.replace(pat, rep)`: left-to-right, non-overlapping, the
replacement text is not rescanned.  The `Nat` argument counts characters of
a just-matched pattern still to be discarded. -/
def replaceAllAux (pat rep : Text) : Text → Nat → Text
  | [], _ => []
  | _ :: rest, k + 1 => replaceAllAux pat rep rest k
  | c :: rest, 0 =>
    if pat ≠ [] ∧ isPre pat (c :: rest) = true then
      rep ++ replaceAllAux pat rep rest (pat.length - 1)
    else
      c :: replaceAllAux pat rep rest 0

def replaceAll (pat rep : Text) (t : Text) : Text := replaceAllAux pat rep t 0

/-! ### YAML front matter (protector.py lines 73-105) -/

/-- `re.search(r'^---\n([\s\S]*?)\n---', text)`: the `^` (no MULTILINE)
anchors at the very start, and the lazy body ends at the first occurrence
of `"\n---"` at index ≥ 4.  Returns the end of the whole match. -/
def yamlMatchEnd (t : Text) : Option Nat :=
  if isPre ("---\n".toList) t = true then
    match findSubFrom t ("\n---".toList) 4 with
    | some q => some (q + 4)
    | none => none
  else none

def protectYamlBlocks (t : Text) : Text × Blocks :=
  match yamlMatchEnd t with
  | some e =>
    (replaceRange t 0 e ("__YAML_FRONT_MATTER__".toList),
     [("__YAML_FRONT_MATTER__".toList, slice t 0 e)])
  | none => (t, [])

/-! ### Reversed masking shared by the math / code / indent / table passes

Each of those passes collects its regex matches in document order and then
processes them in reverse (`for i, match in enumerate(reversed(matches))`),
assigning placeholder index `len(matches) - 1 - i` and replacing the span
in the evolving text; the stored content is taken from the original match.
`maskRevAux` receives the match list already reversed (descending). -/

def maskRevAux (cat orig : Text) : List (Nat × Nat) → Text → Text × Blocks
  | [], txt => (txt, [])
  | m :: rest, txt =>
    let ph := mkPh cat rest.length
    let r := maskRevAux cat orig rest (replaceRange txt m.1 m.2 ph)
    (r.1, (ph, slice orig m.1 m.2) :: r.2)

/-! ### Math blocks (protector.py lines 107-140) -/

/-- `re.finditer(r'(\$\$\s*\n?.*?\n?\s*\$\$)', text, re.DOTALL)`.
With DOTALL the lazy `.*?` absorbs anything, and `\s*`/`\n?` only
whitespace (never `$`), so a match starting at an occurrence of `"$$"`
always ends at the first occurrence of `"$$"` at least two characters
later; positions without such a pair fail and the scan advances by one. -/
def mathMatchesAux (t : Text) : Nat → Nat → List (Nat × Nat)
  | 0, _ => []
  | fuel + 1, p =>
    match findSubFrom t ("$$".toList) p with
    | none => []
    | some s =>
      match findSubFrom t ("$$".toList) (s + 2) with
      | some e => (s, e + 2) :: mathMatchesAux t fuel (e + 2)
      | none => mathMatchesAux t fuel (s + 1)

def mathMatches (t : Text) : List (Nat × Nat) := mathMatchesAux t (t.length + 2) 0

def protectMathBlocks (t : Text) : Text × Blocks :=
  maskRevAux ("MATH_BLOCK".toList) t ((mathMatches t).reverse) t

/-! ### Fenced code blocks (protector.py lines 142-177) -/

/-- The 4-backtick alternative `` ````[^\n]*\n[\s\S]*?```` ``: the opening
fence line runs to its first newline, the lazy body ends at the first
`"````"` after it. -/
def codeMatch4 (t : Text) (s : Nat) : Option Nat :=
  if isPre ("````".toList) (t.drop s) = true then
    match findSubFrom t ("\n".toList) (s + 4) with
    | some nl =>
      match findSubFrom t ("````".toList) (nl + 1) with
      | some e => some (e + 4)
      | none => none
    | none => none
  else none

/-- The 3-backtick alternative `` ```[^\n]*\n[\s\S]*?``` ``. -/
def codeMatch3 (t : Text) (s : Nat) : Option Nat :=
  match findSubFrom t ("\n".toList) (s + 3) with
  | some nl =>
    match findSubFrom t ("```".toList) (nl + 1) with
    | some e => some (e + 3)
    | none => none
  | none => none

/-- `re.finditer` for the alternation (4-backtick branch first). -/
def codeMatchesAux (t : Text) : Nat → Nat → List (Nat × Nat)
  | 0, _ => []
  | fuel + 1, p =>
    match findSubFrom t ("```".toList) p with
    | none => []
    | some s =>
      match codeMatch4 t s with
      | some e => (s, e) :: codeMatchesAux t fuel e
      | none =>
        match codeMatch3 t s with
        | some e => (s, e) :: codeMatchesAux t fuel e
        | none => codeMatchesAux t fuel (s + 1)

def codeMatches (t : Text) : List (Nat × Nat) := codeMatchesAux t (t.length + 2) 0

def protectCodeBlocks (t : Text) : Text × Blocks :=
  maskRevAux ("CODE_BLOCK".toList) t ((codeMatches t).reverse) t

/-! ### Indented blocks (protector.py lines 179-213)

Pattern `(?<=\n\n)(?:[ \t]+[^\n]+\n)+(?=\n|$)`.  A constituent line
`[ \t]+[^\n]+\n` starts with a space or tab, has at least two characters
before its newline (the classes backtrack into each other but cannot cross
the newline), and includes the newline.  The `+` over lines is greedy; if
the lookahead fails after the maximal run it also fails after any shorter
run, because the next position then starts an indented line (a space or a
tab, never a newline or the end), so only the maximal run can match. -/

/-- End of one `[ \t]+[^\n]+\n` line starting at `x` (position after the
newline), if the line matches. -/
def indentLineEnd (t : Text) (x : Nat) : Option Nat :=
  if x < t.length ∧ (charAt t x = ' ' ∨ charAt t x = '\t') then
    match findSubFrom t ("\n".toList) x with
    | some nl => if x + 2 ≤ nl then some (nl + 1) else none
    | none => none
  else none

/-- Greedy run of indented lines starting at `x`; returns the position after
the last one (or `x` itself when there is none). -/
def indentRun (t : Text) : Nat → Nat → Nat
  | 0, x => x
  | fuel + 1, x =>
    match indentLineEnd t x with
    | some e => indentRun t fuel e
    | none => x

/-- Match attempt at position `p`: the lookbehind `(?<=\n\n)`, at least one
indented line, then the lookahead `(?=\n|$)`. -/
def indentMatchAt (t : Text) (p : Nat) : Option Nat :=
  if 2 ≤ p ∧ charAt t (p - 2) = '\n' ∧ charAt t (p - 1) = '\n' then
    match indentLineEnd t p with
    | some e0 =>
      let q := indentRun t (t.length + 2) e0
      if q = t.length ∨ charAt t q = '\n' then some q else none
    | none => none
  else none

def indentMatchesAux (t : Text) : Nat → Nat → List (Nat × Nat)
  | 0, _ => []
  | fuel + 1, p =>
    if t.length < p then []
    else
      match indentMatchAt t p with
      | some q => (p, q) :: indentMatchesAux t fuel q
      | none => indentMatchesAux t fuel (p + 1)

def indentMatches (t : Text) : List (Nat × Nat) := indentMatchesAux t (t.length + 2) 0

def protectIndentBlocks (t : Text) : Text × Blocks :=
  maskRevAux ("INDENT_BLOCK".toList) t ((indentMatches t).reverse) t

/-! ### Pipe tables (protector.py lines 215-251)

Pattern `(\|[^\n]+\|\n\|[-|\s]+\|\n(?:\|[^\n]+\|\n?)+)`.

* Header row `\|[^\n]+\|\n`: a line that starts and ends with `|` and has
  at least one character between the pipes; the literal `\n` is forced to
  be the line's own newline.
* Separator row `\|[-|\s]+\|\n`: after the opening pipe, a greedy run over
  the class `[-|\s]` (note `\s` includes newlines, so the run may cross
  lines).  The closing `\|\n` backtracks over candidate positions `j`
  inside the run (`t[j] = '|'`, `t[j+1] = '\n'`, at least one class
  character before `j`), from the largest downward; for EACH candidate the
  engine goes on to try the data rows, and only moves to the next smaller
  candidate when they fail, so the separator row's extent is decided
  together with the data rows (`sepBacktrack` below).
* Data rows `(?:\|[^\n]+\|\n?)+`: greedy; within one row the closing pipe
  backtracks to the last `|` on the line, and the optional newline is taken
  when present.  Nothing follows them in the pattern, so once one row
  matches the repetition simply runs greedily. -/

def isSepClass (c : Char) : Bool := (c = '-') || (c = '|') || isSpacePy c

/-- First position ≥ `x` whose character is outside `[-|\s]` (or the end). -/
def classRunEnd (t : Text) : Nat → Nat → Nat
  | 0, x => x
  | fuel + 1, x =>
    if x < t.length ∧ isSepClass (charAt t x) = true then classRunEnd t fuel (x + 1) else x

/-- Largest `k ≤ start` with `k ≥ lo` and `t[k] = '|'`. -/
def barSearchDown (t : Text) (lo : Nat) : Nat → Option Nat
  | 0 => if lo = 0 ∧ charAt t 0 = '|' then some 0 else none
  | k + 1 =>
    if k + 1 < lo then none
    else if charAt t (k + 1) = '|' then some (k + 1)
    else barSearchDown t lo k

/-- End of one data row `\|[^\n]+\|\n?` starting at `x`, if it matches. -/
def dataRowEnd (t : Text) (x : Nat) : Option Nat :=
  if x < t.length ∧ charAt t x = '|' then
    let lineEnd := (findSubFrom t ("\n".toList) x).getD t.length
    match barSearchDown t (x + 2) (lineEnd - 1) with
    | some k => some (if charAt t (k + 1) = '\n' then k + 2 else k + 1)
    | none => none
  else none

def dataRowsRun (t : Text) : Nat → Nat → Nat
  | 0, x => x
  | fuel + 1, x =>
    match dataRowEnd t x with
    | some e => dataRowsRun t fuel e
    | none => x

/-- Backtracking over the separator row's closing `\|\n`: candidate
positions `j` (with `t[j] = '|'`, `t[j+1] = '\n'` and `j ≥ lo`, i.e. at
least one `[-|\s]` character after the opening pipe) are tried from the
largest downward; at each candidate the data rows must contribute at least
one row, in which case the end of their greedy run is the match end, and
otherwise the next smaller candidate is tried. -/
def sepBacktrack (t : Text) (lo : Nat) : Nat → Option Nat
  | 0 =>
    if lo = 0 ∧ charAt t 0 = '|' ∧ charAt t 1 = '\n' then
      match dataRowEnd t 2 with
      | some e1 => some (dataRowsRun t (t.length + 2) e1)
      | none => none
    else none
  | j + 1 =>
    if j + 1 < lo then none
    else if charAt t (j + 1) = '|' ∧ charAt t (j + 2) = '\n' then
      match dataRowEnd t (j + 3) with
      | some e1 => some (dataRowsRun t (t.length + 2) e1)
      | none => sepBacktrack t lo j
    else sepBacktrack t lo j

/-- Full table match attempt at position `p` (header, separator with its
backtracking joined to the data rows); returns the end of the match. -/
def tableMatchAt (t : Text) (p : Nat) : Option Nat :=
  if p < t.length ∧ charAt t p = '|' then
    match findSubFrom t ("\n".toList) p with
    | some nl1 =>
      if p + 3 ≤ nl1 ∧ charAt t (nl1 - 1) = '|' then
        if nl1 + 1 < t.length ∧ charAt t (nl1 + 1) = '|' then
          let r := classRunEnd t (t.length + 2) (nl1 + 2)
          sepBacktrack t (nl1 + 3) (r - 1)
        else none
      else none
    | none => none
  else none

def tableMatchesAux (t : Text) : Nat → Nat → List (Nat × Nat)
  | 0, _ => []
  | fuel + 1, p =>
    match findSubFrom t ("|".toList) p with
    | none => []
    | some s =>
      match tableMatchAt t s with
      | some q => (s, q) :: tableMatchesAux t fuel q
      | none => tableMatchesAux t fuel (s + 1)

def tableMatches (t : Text) : List (Nat × Nat) := tableMatchesAux t (t.length + 2) 0

def protectTableBlocks (t : Text) : Text × Blocks :=
  maskRevAux ("TABLE_BLOCK".toList) t ((tableMatches t).reverse) t

/-! ### HTML tags (protector.py lines 253-402) -/

def phHtml (i : Nat) : Text := mkPh ("HTML_TAG".toList) i

/-- `re.finditer(r'<!--[\s\S]*?-->', ...)`: from each `"<!--"`, the lazy
body ends at the first `"-->"` at least four characters later; if no close
exists, no later start can close either, so the scan stops. -/
def commentMatchesAux (t : Text) : Nat → Nat → List (Nat × Nat)
  | 0, _ => []
  | fuel + 1, p =>
    match findSubFrom t ("<!--".toList) p with
    | none => []
    | some s =>
      match findSubFrom t ("-->".toList) (s + 4) with
      | some e => (s, e + 3) :: commentMatchesAux t fuel (e + 3)
      | none => []

def commentMatches (t : Text) : List (Nat × Nat) := commentMatchesAux t (t.length + 2) 0

/-- `re.finditer` for `<script[^>]*>[\s\S]*?</script>` (and the analogous
style pattern) with `re.IGNORECASE`: case-insensitive opening prefix, the
first `>` after it ends the opening tag, the lazy body ends at the first
case-insensitive closing tag.  `lt` is the lower-cased text. -/
def tagPairMatchesAux (t lt openPat closePat : Text) : Nat → Nat → List (Nat × Nat)
  | 0, _ => []
  | fuel + 1, p =>
    match findSubFrom lt openPat p with
    | none => []
    | some s =>
      match findSubFrom t (">".toList) (s + openPat.length) with
      | none => []
      | some g =>
        match findSubFrom lt closePat (g + 1) with
        | some e =>
          (s, e + closePat.length) ::
            tagPairMatchesAux t lt openPat closePat fuel (e + closePat.length)
        | none => []

def scriptMatches (t : Text) : List (Nat × Nat) :=
  tagPairMatchesAux t (lcText t) ("<script".toList) ("</script>".toList) (t.length + 2) 0

def styleMatches (t : Text) : List (Nat × Nat) :=
  tagPairMatchesAux t (lcText t) ("<style".toList) ("</style>".toList) (t.length + 2) 0

/-- The priority-pattern loop (protector.py lines 274-280): matches are
processed in reverse document order while the counter keeps increasing, so
within one pattern the LAST match in the document gets the SMALLEST index.
The list of matches is supplied already reversed. -/
def maskRevCtrAux (orig : Text) : List (Nat × Nat) → Text → Nat → Text × Blocks × Nat
  | [], txt, ctr => (txt, [], ctr)
  | m :: rest, txt, ctr =>
    let ph := phHtml ctr
    let r := maskRevCtrAux orig rest (replaceRange txt m.1 m.2 ph) (ctr + 1)
    (r.1, (ph, slice orig m.1 m.2) :: r.2.1, r.2.2)

/-- Step 1 of `_protect_html_blocks`: comments, then script tags, then
style tags, each pattern matched against the text produced by the previous
one. -/
def htmlPriorityPass (t : Text) : Text × Blocks × Nat :=
  let r1 := maskRevCtrAux t ((commentMatches t).reverse) t 0
  let r2 := maskRevCtrAux r1.1 ((scriptMatches r1.1).reverse) r1.1 r1.2.2
  let r3 := maskRevCtrAux r2.1 ((styleMatches r2.1).reverse) r2.1 r2.2.2
  (r3.1, r1.2.1 ++ r2.2.1 ++ r3.2.1, r3.2.2)

/-- `re.match(r'<(\w+)', text[tagStart:])`: the word run after the `<`. -/
def wordRun (t : Text) (i : Nat) : Text := (t.drop i).takeWhile isWordChar

/-- `re.match(r'<[^>]+\s*/>', text[tagStart:])`: matches exactly when the
first `>` after `tagStart` sits at `g ≥ tagStart + 3` with a `/` directly
before it (the `[^>]+`/`\s*` split is unconstrained otherwise since neither
class may contain `>`).  Returns the end of the match, `g + 1`. -/
def selfClosingEnd (t : Text) (tagStart : Nat) : Option Nat :=
  match findSubFrom t (">".toList) tagStart with
  | some g => if tagStart + 3 ≤ g ∧ charAt t (g - 1) = '/' then some (g + 1) else none
  | none => none

/-- The `single_tags` set (protector.py line 314). -/
def singleTags : List Text :=
  ["br".toList, "hr".toList, "img".toList, "input".toList, "meta".toList,
   "link".toList, "area".toList, "base".toList, "col".toList, "embed".toList,
   "source".toList, "track".toList, "wbr".toList]

def lcSlice (t : Text) (a b : Nat) : Text := lcText (slice t a b)

/-- The forward scan of `_find_complete_tag` (protector.py lines 354-394):
depth counting over same-name open/close tags.  The placeholder check
compares a 12-character slice with the 11-character literal
`'__HTML_TAG_'` and is kept verbatim (it can never succeed, because the
scanned position holds a `<`). -/
def fctLoop (t name : Text) : Nat → Nat → Nat → Option Nat
  | 0, _, _ => none
  | fuel + 1, pos, oc =>
    if pos < t.length ∧ 0 < oc then
      match findSubFrom t ("<".toList) pos with
      | none => none
      | some nextTag =>
        if slice t nextTag (nextTag + 12) = "__HTML_TAG_".toList then
          match findSubFrom t ("__".toList) (nextTag + 12) with
          | some pe => fctLoop t name fuel (pe + 2) oc
          | none => fctLoop t name fuel (nextTag + 1) oc
        else if slice t nextTag (nextTag + 2) = "</".toList then
          if lcSlice t nextTag (nextTag + name.length + 3) =
              "</".toList ++ name ++ ">".toList then
            if oc - 1 = 0 then some (nextTag + name.length + 3)
            else fctLoop t name fuel (nextTag + name.length + 3) (oc - 1)
          else fctLoop t name fuel (nextTag + 1) oc
        else
          if lcSlice t nextTag (nextTag + name.length + 1) = "<".toList ++ name then
            match findSubFrom t (">".toList) (nextTag + name.length + 1) with
            | some g =>
              if charAt t (g - 1) = '/' then fctLoop t name fuel (g + 1) oc
              else fctLoop t name fuel (g + 1) (oc + 1)
            | none => fctLoop t name fuel (nextTag + 1) oc
          else fctLoop t name fuel (nextTag + 1) oc
    else none

def findCompleteTag (t : Text) (startPos : Nat) (name : Text) : Option Nat :=
  match findSubFrom t (">".toList) startPos with
  | none => none
  | some g => fctLoop t name (t.length + 2) (g + 1) 1

/-- Step 2 of `_protect_html_blocks` (lines 287-343): the left-to-right
scan over unmasked `<` characters.  The placeholder check at line 295 is
kept verbatim (dead for the same reason as in `fctLoop`). -/
def htmlScan : Nat → Text → Nat → Blocks → Nat → Text × Blocks
  | 0, txt, _, bs, _ => (txt, bs)
  | fuel + 1, txt, pos, bs, ctr =>
    match findSubFrom txt ("<".toList) pos with
    | none => (txt, bs)
    | some tagStart =>
      if slice txt tagStart (tagStart + 12) = "__HTML_TAG_".toList then
        match findSubFrom txt ("__".toList) (tagStart + 12) with
        | some pe => htmlScan fuel txt (pe + 2) bs ctr
        | none => htmlScan fuel txt (tagStart + 1) bs ctr
      else if wordRun txt (tagStart + 1) = [] then
        htmlScan fuel txt (tagStart + 1) bs ctr
      else
        match selfClosingEnd txt tagStart with
        | some e =>
          htmlScan fuel (replaceRange txt tagStart e (phHtml ctr))
            (tagStart + (phHtml ctr).length)
            (bs ++ [(phHtml ctr, slice txt tagStart e)]) (ctr + 1)
        | none =>
          if lcText (wordRun txt (tagStart + 1)) ∈ singleTags then
            match findSubFrom txt (">".toList) tagStart with
            | some cb =>
              htmlScan fuel (replaceRange txt tagStart (cb + 1) (phHtml ctr))
                (tagStart + (phHtml ctr).length)
                (bs ++ [(phHtml ctr, slice txt tagStart (cb + 1))]) (ctr + 1)
            | none => htmlScan fuel txt (tagStart + 1) bs ctr
          else
            match findCompleteTag txt tagStart (lcText (wordRun txt (tagStart + 1))) with
            | some e =>
              htmlScan fuel (replaceRange txt tagStart e (phHtml ctr))
                (tagStart + (phHtml ctr).length)
                (bs ++ [(phHtml ctr, slice txt tagStart e)]) (ctr + 1)
            | none => htmlScan fuel txt (tagStart + 1) bs ctr

def protectHtmlBlocks (t : Text) : Text × Blocks :=
  let pr := htmlPriorityPass t
  htmlScan (pr.1.length + 2) pr.1 0 pr.2.1 pr.2.2

/-! ### `MarkdownProtector.protect` / `.restore` (protector.py lines 18-71) -/

/-- The `self.protected_blocks` dictionary of `MarkdownProtector`. -/
structure PBlocks where
  yaml : Blocks
  math : Blocks
  code : Blocks
  indent : Blocks
  table : Blocks
  html : Blocks
deriving DecidableEq

def emptyPB : PBlocks := ⟨[], [], [], [], [], []⟩

/-- `protect` (lines 29-49).  The method only ASSIGNS the six entries of
`self.protected_blocks`, never reading the previous contents, so the
incoming state is unused. -/
def protectS (_prev : PBlocks) (t : Text) : PBlocks × Text :=
  let y := protectYamlBlocks t
  let m := protectMathBlocks y.1
  let c := protectCodeBlocks m.1
  let i := protectIndentBlocks c.1
  let tb := protectTableBlocks i.1
  let h := protectHtmlBlocks tb.1
  ({ yaml := y.2, math := m.2, code := c.2, indent := i.2, table := tb.2, html := h.2 },
   h.1)

/-- One category's `_restore_*` helper: `result.replace(ph, block)` folded
over the dict items in insertion order. -/
def restoreList (bs : Blocks) (u : Text) : Text :=
  bs.foldl (fun acc pb => replaceAll pb.1 pb.2 acc) u

/-- `restore` (lines 51-71): the six categories in the reverse of the
protection order. -/
def restoreS (s : PBlocks) (u : Text) : Text :=
  restoreList s.yaml
    (restoreList s.math
      (restoreList s.code
        (restoreList s.indent
          (restoreList s.table
            (restoreList s.html u)))))

/-- `protect` on a freshly constructed `MarkdownProtector`. -/
def protectText (t : Text) : PBlocks × Text := protectS emptyPB t

/-- `restore(protect(t))` on a fresh instance with no mutation between the
two calls. -/
def roundTrip (t : Text) : Text :=
  restoreS (protectText t).1 (protectText t).2

/-- All placeholders recorded in a protector state. -/
def placeholdersOf (s : PBlocks) : List Text :=
  (s.html ++ s.table ++ s.indent ++ s.code ++ s.math ++ s.yaml).map Prod.fst

/-- No recorded placeholder occurs in `u`. -/
def noPhRemains (s : PBlocks) (u : Text) : Bool :=
  (placeholdersOf s).all (fun ph => ! hasSub ph u)

/-! ## The adaptive chunker (chunker.py)

The chunker's collaborators are external libraries (tiktoken, langchain's
`MarkdownHeaderTextSplitter` and `RecursiveCharacterTextSplitter`); they
are modelled from the specification below.  The chunker itself
(`split_text`, `_process_chunk`) is translated from chunker.py and is
parameterised by the token-counting oracle `count`. -/

/-- A langchain `Document`: page content, header metadata and the
`token_count` metadata entry (absent until `_process_chunk` sets it). -/
structure Doc where
  content : Text
  meta : List (Text × Text)
  tokenCount : Option Nat
deriving DecidableEq

def splitOnCharAux (c : Char) : Text → Text → List Text
  | [], acc => [acc.reverse]
  | x :: rest, acc =>
    if x = c then acc.reverse :: splitOnCharAux c rest []
    else splitOnCharAux c rest (x :: acc)

def splitOnChar (c : Char) (t : Text) : List Text := splitOnCharAux c t []

def isBlankLine (l : Text) : Bool := l.all isSpacePy

/-- Markdown ATX header: 1-6 `#` characters followed by a space; yields the
level and the title (leading spaces dropped). -/
def headerLevelOf (line : Text) : Option (Nat × Text) :=
  let k := (line.takeWhile (fun c => c = '#')).length
  if 1 ≤ k ∧ k ≤ 6 ∧ charAt line k = ' ' then
    some (k, (line.drop (k + 1)).dropWhile (fun c => c = ' '))
  else none

def headerKey (k : Nat) : Text := "Header ".toList ++ natDigits k

def headerSegsAux : List Text → List (Nat × Text) → List Doc
  | [], _ => []
  | l :: rest, stack =>
    match headerLevelOf l with
    | some (k, title) =>
      let stack2 := (stack.filter (fun p => p.1 < k)) ++ [(k, title)]
      { content := l, meta := stack2.map (fun p => (headerKey p.1, p.2)),
        tokenCount := none } :: headerSegsAux rest stack2
    | none =>
      if isBlankLine l then headerSegsAux rest stack
      else
        { content := l, meta := stack.map (fun p => (headerKey p.1, p.2)),
          tokenCount := none } :: headerSegsAux rest stack

/-- Modelled from the spec: the heading-aware line partitioner collaborator
(`MarkdownHeaderTextSplitter(return_each_line=True, strip_headers=False)`,
external library code): "Partition the input into heading-anchored
line-level segments (one segment per line, annotated with the stack of
enclosing heading texts/levels at that point)".  Blank lines separate
blocks and yield no segment; header lines are kept as content. -/
def headerSegs (t : Text) : List Doc := headerSegsAux (splitOnChar '\n' t) []

/-- Python `dict.update`: existing keys keep their position and take the
new value, fresh keys are appended. -/
def lookupA (m : List (Text × Text)) (k : Text) : Option Text :=
  (m.find? (fun p => p.1 = k)).map Prod.snd

def metaUpdate (old new : List (Text × Text)) : List (Text × Text) :=
  (old.map (fun p => (p.1, (lookupA new p.1).getD p.2))) ++
    new.filter (fun p => (lookupA old p.1).isNone)

/-- The `"\n\n"` join used when merging chunks (chunker.py line 85). -/
def sepBlank : Text := "\n\n".toList

/-- The accumulation loop of `split_text` (chunker.py lines 74-101),
factored to return the list of finalized buffers in order; in the source
each finalized buffer is passed to `_process_chunk` as it is emitted, which
yields the same final list. -/
def mergeLoop (count : Text → Nat) (maxT : Nat) : List Doc → Option Doc → List Doc
  | [], none => []
  | [], some a => [a]
  | c :: rest, none => mergeLoop count maxT rest (some c)
  | c :: rest, some a =>
    if count (a.content ++ sepBlank ++ c.content) ≤ maxT then
      mergeLoop count maxT rest
        (some { a with content := a.content ++ sepBlank ++ c.content,
                       meta := metaUpdate a.meta c.meta })
    else
      a :: mergeLoop count maxT rest (some c)

def mergeBuffers (count : Text → Nat) (maxT : Nat) (segs : List Doc) : List Doc :=
  mergeLoop count maxT segs none

/-- Suffix of `cur` carried into the next piece for a nonzero overlap. -/
def overlapCarry (overlap : Nat) (cur : Text) : Text :=
  cur.drop (cur.length - overlap)

/-- Greedy packing of words into pieces bounded by `maxLen` in oracle
units, joined by single spaces, with overlap carried between pieces. -/
def packWords (count : Text → Nat) (maxLen overlap : Nat) : List Text → Text → List Text
  | [], cur => if cur = [] then [] else [cur]
  | w :: rest, cur =>
    if cur = [] then packWords count maxLen overlap rest w
    else if count (cur ++ ' ' :: w) ≤ maxLen then
      packWords count maxLen overlap rest (cur ++ ' ' :: w)
    else
      cur :: packWords count maxLen overlap rest
        (let carry := overlapCarry overlap cur
         if carry = [] then w else carry ++ ' ' :: w)

/-- Modelled from the spec: the recursive length-bounded splitter
collaborator (`RecursiveCharacterTextSplitter` with
`length_function = count_tokens`, external library code):
"splitByLength(text, maxLength, overlap) -> ordered sequence of string,
using the same token-counting oracle as its length function".  A text
within the bound is returned whole; an oversized text is split at spaces
and greedily re-packed under the bound, with a configured character
overlap carried between adjacent pieces. -/
def recSplit (count : Text → Nat) (maxLen overlap : Nat) (t : Text) : List Text :=
  if count t ≤ maxLen then [t]
  else packWords count maxLen overlap ((splitOnChar ' ' t).filter (fun w => ¬ w = [])) []

/-- `_process_chunk` (chunker.py lines 105-129).  NOTE: the re-splitter is
the `RecursiveCharacterTextSplitter` configured in `__init__` (line 51)
with `chunk_size = self.max_tokens * 3` — three times the budget, measured
by `count_tokens` — hence the `maxT * 3` below. -/
def processChunk (count : Text → Nat) (maxT overlap : Nat) (c : Doc) : List Doc :=
  if count c.content ≤ maxT then
    [{ c with tokenCount := some (count c.content) }]
  else
    (recSplit count (maxT * 3) overlap c.content).map
      (fun p => { content := p, meta := c.meta, tokenCount := some (count p) })

def concatMap (f : α → List β) : List α → List β
  | [] => []
  | a :: l => f a ++ concatMap f l

/-- `split_text` (chunker.py lines 60-103). -/
def splitText (count : Text → Nat) (maxT overlap : Nat) (t : Text) : List Doc :=
  concatMap (processChunk count maxT overlap) (mergeBuffers count maxT (headerSegs t))

/-- The token-count list of `get_chunk_stats` (chunker.py line 141):
`chunk.metadata.get("token_count", 0)`. -/
def tokenCountsOf (chunks : List Doc) : List Nat :=
  chunks.map (fun c => c.tokenCount.getD 0)

/-- Modelled from the spec: a concrete deterministic token-counting oracle
("count(text: string) -> integer, a pure function"), counting
space-separated words; used to instantiate witnesses. -/
def wordCount (t : Text) : Nat :=
  ((splitOnChar ' ' t).filter (fun w => ¬ w = [])).length

/-- Modelled from the spec: a second concrete oracle, counting characters. -/
def charCount (t : Text) : Nat := t.length

/-- Concatenation of contents joined by the blank-line separator. -/
def joinBlank : List Text → Text
  | [] => []
  | [x] => x
  | x :: y :: rest => x ++ sepBlank ++ joinBlank (y :: rest)

/-- A document with two spans of each of the four indexed protector
categories, used to instantiate the appearance-order indexing theorem at
j = 1 for every pass. -/
def c5doc : Text :=
  ("$$a$$ $$b$$\n\n  i1\n  i2\n\n  i3\n\n|h|\n|-|\n|d|\n\n" ++
   "|H|\n|-|\n|D|\n\n```\nc\n```\n\n```\nd\n```\n").toList

/-! ## Helper lemmas -/

theorem replaceAll_id (pat rep : Text) :
    ∀ u : Text, hasSub pat u = false → replaceAll pat rep u = u := by
  intro u
  induction u with
  | nil => intro _; rfl
  | cons c rest ih =>
    intro h
    simp only [hasSub, Bool.or_eq_false_iff] at h
    show replaceAllAux pat rep (c :: rest) 0 = c :: rest
    rw [replaceAllAux, if_neg]
    · exact congrArg (c :: ·) (ih h.2)
    · intro hc
      rw [h.1] at hc
      exact Bool.false_ne_true hc.2

theorem restoreList_id (bs : Blocks) :
    ∀ u : Text, (∀ pb ∈ bs, hasSub pb.1 u = false) → restoreList bs u = u := by
  induction bs with
  | nil => intro u _; rfl
  | cons pb rest ih =>
    intro u h
    show restoreList rest (replaceAll pb.1 pb.2 u) = u
    rw [replaceAll_id pb.1 pb.2 u (h pb (List.mem_cons_self _ _))]
    exact ih u (fun q hq => h q (List.mem_cons_of_mem _ hq))

theorem restoreS_id (s : PBlocks) (u : Text) (h : noPhRemains s u = true) :
    restoreS s u = u := by
  have hall : ∀ pb ∈ s.html ++ s.table ++ s.indent ++ s.code ++ s.math ++ s.yaml,
      hasSub pb.1 u = false := by
    intro pb hpb
    have h2 := (List.all_eq_true.mp h) pb.1 (List.mem_map_of_mem Prod.fst hpb)
    simpa using h2
  show restoreList s.yaml (restoreList s.math (restoreList s.code
      (restoreList s.indent (restoreList s.table (restoreList s.html u))))) = u
  rw [restoreList_id s.html u (fun pb hpb => hall pb (by simp [hpb])),
      restoreList_id s.table u (fun pb hpb => hall pb (by simp [hpb])),
      restoreList_id s.indent u (fun pb hpb => hall pb (by simp [hpb])),
      restoreList_id s.code u (fun pb hpb => hall pb (by simp [hpb])),
      restoreList_id s.math u (fun pb hpb => hall pb (by simp [hpb])),
      restoreList_id s.yaml u (fun pb hpb => hall pb (by simp [hpb]))]

theorem maskRevAux_blocks_mem (cat orig : Text) :
    ∀ (rl : List (Nat × Nat)) (txt : Text) (i : Nat), i < rl.length →
      (mkPh cat (rl.length - 1 - i),
       slice orig (rl.getD i (0, 0)).1 (rl.getD i (0, 0)).2)
        ∈ (maskRevAux cat orig rl txt).2 := by
  intro rl
  induction rl with
  | nil => intro txt i hi; exact absurd hi (Nat.not_lt_zero i)
  | cons m rest ih =>
    intro txt i hi
    cases i with
    | zero => exact List.mem_cons_self _ _
    | succ i =>
      have hi2 := Nat.lt_of_succ_lt_succ hi
      have h1 : (m :: rest).length - 1 - (i + 1) = rest.length - 1 - i := by
        simp only [List.length_cons]
        omega
      have h2 : (m :: rest).getD (i + 1) (0, 0) = rest.getD i (0, 0) := rfl
      rw [h1, h2]
      exact List.mem_cons_of_mem _ (ih _ i hi2)

/-- The appearance-order indexing property of the shared reversed-masking
routine, phrased over the appearance-ordered match list of a pass: the j-th
match in document order is stored under placeholder index j. -/
theorem maskRev_pass_index (cat orig : Text) (ms : List (Nat × Nat)) (j : Nat)
    (h : j < ms.length) :
    (mkPh cat j, slice orig (ms.getD j (0, 0)).1 (ms.getD j (0, 0)).2)
      ∈ (maskRevAux cat orig ms.reverse orig).2 := by
  have hlen : ms.reverse.length = ms.length := List.length_reverse _
  have hi : ms.length - 1 - j < ms.reverse.length := by rw [hlen]; omega
  have hidx : ms.reverse.length - 1 - (ms.length - 1 - j) = j := by rw [hlen]; omega
  have hget : ms.reverse.getD (ms.length - 1 - j) (0, 0) = ms.getD j (0, 0) := by
    rw [List.getD_eq_getElem _ _ hi, List.getD_eq_getElem _ _ h, List.getElem_reverse]
    have h2 : ms.length - 1 - (ms.length - 1 - j) = j := by omega
    simp only [h2]
  have hmem := maskRevAux_blocks_mem cat orig ms.reverse orig (ms.length - 1 - j) hi
  rw [hidx, hget] at hmem
  exact hmem

theorem mergeLoop_some_ne_nil (count : Text → Nat) (maxT : Nat) :
    ∀ (segs : List Doc) (a : Doc), mergeLoop count maxT segs (some a) ≠ [] := by
  intro segs
  induction segs with
  | nil => intro a; simp [mergeLoop]
  | cons c rest ih =>
    intro a
    rw [mergeLoop]
    by_cases hm : count (a.content ++ sepBlank ++ c.content) ≤ maxT
    · rw [if_pos hm]; exact ih _
    · rw [if_neg hm]; simp

theorem joinBlank_cons_ne (x : Text) (l : List Text) (h : l ≠ []) :
    joinBlank (x :: l) = x ++ sepBlank ++ joinBlank l := by
  cases l with
  | nil => exact absurd rfl h
  | cons y rest => rfl

theorem joinBlank_merge (x y : Text) (l : List Text) :
    joinBlank ((x ++ sepBlank ++ y) :: l) = joinBlank (x :: y :: l) := by
  cases l with
  | nil => simp [joinBlank]
  | cons z zs => simp [joinBlank, List.append_assoc]

theorem mergeLoop_join (count : Text → Nat) (maxT : Nat) :
    ∀ (segs : List Doc) (a : Doc),
      joinBlank ((mergeLoop count maxT segs (some a)).map Doc.content) =
        joinBlank (a.content :: segs.map Doc.content) := by
  intro segs
  induction segs with
  | nil => intro a; rfl
  | cons c rest ih =>
    intro a
    rw [mergeLoop]
    by_cases hm : count (a.content ++ sepBlank ++ c.content) ≤ maxT
    · rw [if_pos hm, ih]
      simpa using joinBlank_merge a.content c.content (rest.map Doc.content)
    · rw [if_neg hm]
      have hne : (mergeLoop count maxT rest (some c)).map Doc.content ≠ [] := by
        intro hnil
        exact mergeLoop_some_ne_nil count maxT rest c (List.map_eq_nil_iff.mp hnil)
      rw [List.map_cons, joinBlank_cons_ne _ _ hne, ih, List.map_cons,
          joinBlank_cons_ne a.content (c.content :: rest.map Doc.content) (by simp)]

theorem processChunk_stamps (count : Text → Nat) (maxT ov : Nat) (c : Doc) :
    ∀ d ∈ processChunk count maxT ov c, d.tokenCount = some (count d.content) := by
  intro d hd
  by_cases hb : count c.content ≤ maxT
  · simp only [processChunk, if_pos hb, List.mem_singleton] at hd
    rw [hd]
  · simp only [processChunk, if_neg hb, List.mem_map] at hd
    obtain ⟨p, _, hfd⟩ := hd
    rw [← hfd]

theorem concatMap_mem (f : α → List β) :
    ∀ (l : List α) (b : β), b ∈ concatMap f l → ∃ a ∈ l, b ∈ f a := by
  intro l
  induction l with
  | nil => intro b hb; exact absurd hb (by simp [concatMap])
  | cons a rest ih =>
    intro b hb
    simp only [concatMap, List.mem_append] at hb
    cases hb with
    | inl h => exact ⟨a, List.mem_cons_self _ _, h⟩
    | inr h =>
      obtain ⟨a2, ha2, hb2⟩ := ih b h
      exact ⟨a2, List.mem_cons_of_mem _ ha2, hb2⟩

theorem concatMap_contents_of_small (count : Text → Nat) (maxT ov : Nat) :
    ∀ bs : List Doc, (∀ b ∈ bs, count b.content ≤ maxT) →
      (concatMap (processChunk count maxT ov) bs).map Doc.content = bs.map Doc.content := by
  intro bs
  induction bs with
  | nil => intro _; rfl
  | cons b rest ih =>
    intro h
    have hb : count b.content ≤ maxT := h b (List.mem_cons_self _ _)
    show ((processChunk count maxT ov b ++ concatMap (processChunk count maxT ov) rest).map
        Doc.content) = _
    rw [List.map_append, ih (fun q hq => h q (List.mem_cons_of_mem _ hq))]
    simp [processChunk, if_pos hb]

/-! ## Claims -/

/-- Claim C1.  The round-trip identity `restore(protect(t)) = t` FAILS on
the code: for `<div><!-- c --></div>` the comment is masked first
(`__HTML_TAG_0__`), the surrounding `div` — placeholder included — is then
masked as `__HTML_TAG_1__`, and `restore` replaces the placeholders in
ascending-counter order, so the outer block is reinserted only after the
pass for the inner placeholder has already run; the inner placeholder is
never restored. -/
theorem claim_C1_roundtrip_bug :
    roundTrip ("<div><!-- c --></div>".toList) = ("<div>__HTML_TAG_0__</div>".toList) ∧
    ¬ roundTrip ("<div><!-- c --></div>".toList) = ("<div><!-- c --></div>".toList) := by
  decide

/-- Claim C2.  The token-budget invariant FAILS on the code: `__init__`
(chunker.py line 51) configures the re-splitter with
`chunk_size = max_tokens * 3` while its `length_function` is
`count_tokens`, so an oversized buffer is only re-split down to three times
the budget.  With budget 2 the four-token segment `wa wb wc wd` is emitted
as a single unit of 4 tokens, although the same splitter bounded by the
actual budget would have reduced it to two units of 2 tokens each. -/
theorem claim_C2_budget_bug :
    splitText wordCount 2 0 ("wa wb wc wd".toList) =
      [⟨"wa wb wc wd".toList, [], some 4⟩] ∧
    ¬ (4 ≤ 2) ∧
    recSplit wordCount 2 0 ("wa wb wc wd".toList) = ["wa wb".toList, "wc wd".toList] ∧
    wordCount ("wa wb".toList) ≤ 2 ∧ wordCount ("wc wd".toList) ≤ 2 := by
  decide

/-- Claim C3.  `<div><span>x</span><span>y</span></div>` is masked by the
HTML pass as exactly one placeholder whose stored span is the entire outer
element including both nested spans. -/
theorem claim_C3_nested_tag :
    protectHtmlBlocks ("<div><span>x</span><span>y</span></div>".toList) =
      ("__HTML_TAG_0__".toList,
       [("__HTML_TAG_0__".toList, "<div><span>x</span><span>y</span></div>".toList)]) := by
  decide

/-- Claim C4 counterexample.  Concatenating the returned unit contents and
removing the chunk separator does NOT reproduce the masked input: the
line-level partition drops the original line breaks and `split_text`
rejoins segments with `"\n\n"` (chunker.py line 85), so for input `a\nb`
the single returned unit is `a\n\nb`; neither plain concatenation nor
removing the `"\n\n"` separators recovers `a\nb`. -/
theorem claim_C4_counterexample :
    (splitText charCount 10 0 ("a\nb".toList)).map Doc.content = ["a\n\nb".toList] ∧
    ¬ joinBlank ((splitText charCount 10 0 ("a\nb".toList)).map Doc.content) =
        ("a\nb".toList) ∧
    ¬ replaceAll sepBlank []
        (joinBlank ((splitText charCount 10 0 ("a\nb".toList)).map Doc.content)) =
        ("a\nb".toList) := by
  decide

/-- Claim C4 amended.  Provided every finalized buffer is within budget
(so no buffer is re-split), the unit contents in output order, joined by
the chunk separator, reproduce the partitioner's segment sequence joined by
the same separator — i.e. the masked input up to the line-level
normalization performed by the heading partitioner. -/
theorem claim_C4_order_amended (count : Text → Nat) (maxT overlap : Nat) (t : Text)
    (h : ∀ b ∈ mergeBuffers count maxT (headerSegs t), count b.content ≤ maxT) :
    joinBlank ((splitText count maxT overlap t).map Doc.content) =
      joinBlank ((headerSegs t).map Doc.content) := by
  rw [splitText, concatMap_contents_of_small count maxT overlap _ h]
  rw [mergeBuffers] at *
  cases hsegs : headerSegs t with
  | nil => rfl
  | cons s rest =>
    show joinBlank ((mergeLoop count maxT rest (some s)).map Doc.content) = _
    rw [mergeLoop_join count maxT rest s, List.map_cons]

theorem claim_C4_order_amended_witness :
    (∀ b ∈ mergeBuffers charCount 10 (headerSegs ("a\nb".toList)),
      charCount b.content ≤ 10) ∧
    joinBlank ((splitText charCount 10 0 ("a\nb".toList)).map Doc.content) =
      joinBlank ((headerSegs ("a\nb".toList)).map Doc.content) :=
  ⟨by decide, claim_C4_order_amended charCount 10 0 ("a\nb".toList) (by decide)⟩

/-- Claim C5 counterexample.  In the HTML priority pass (protector.py
lines 274-280) matches are processed in reverse document order while the
counter increases, so of two comments the LAST one in the document
receives index 0 and the first one index 1 — the reverse of appearance
order. -/
theorem claim_C5_counterexample :
    protectHtmlBlocks ("<!--a-->x<!--b-->".toList) =
      ("__HTML_TAG_1__x__HTML_TAG_0__".toList,
       [("__HTML_TAG_0__".toList, "<!--b-->".toList),
        ("__HTML_TAG_1__".toList, "<!--a-->".toList)]) ∧
    ¬ ("__HTML_TAG_0__".toList, "<!--a-->".toList) ∈
        (protectHtmlBlocks ("<!--a-->x<!--b-->".toList)).2 := by
  decide

/-- Claim C5 amended.  For the math, code, indent and table passes — all
built on the reversed processing with index `len - 1 - i` — the zero-based
placeholder index IS assigned in appearance order: the j-th match of the
pass in document order is stored under placeholder index j. -/
theorem claim_C5_index_amended (t : Text) (j : Nat) :
    (j < (mathMatches t).length →
      (mkPh ("MATH_BLOCK".toList) j,
       slice t ((mathMatches t).getD j (0, 0)).1 ((mathMatches t).getD j (0, 0)).2)
        ∈ (protectMathBlocks t).2) ∧
    (j < (codeMatches t).length →
      (mkPh ("CODE_BLOCK".toList) j,
       slice t ((codeMatches t).getD j (0, 0)).1 ((codeMatches t).getD j (0, 0)).2)
        ∈ (protectCodeBlocks t).2) ∧
    (j < (indentMatches t).length →
      (mkPh ("INDENT_BLOCK".toList) j,
       slice t ((indentMatches t).getD j (0, 0)).1 ((indentMatches t).getD j (0, 0)).2)
        ∈ (protectIndentBlocks t).2) ∧
    (j < (tableMatches t).length →
      (mkPh ("TABLE_BLOCK".toList) j,
       slice t ((tableMatches t).getD j (0, 0)).1 ((tableMatches t).getD j (0, 0)).2)
        ∈ (protectTableBlocks t).2) :=
  ⟨fun h => maskRev_pass_index ("MATH_BLOCK".toList) t (mathMatches t) j h,
   fun h => maskRev_pass_index ("CODE_BLOCK".toList) t (codeMatches t) j h,
   fun h => maskRev_pass_index ("INDENT_BLOCK".toList) t (indentMatches t) j h,
   fun h => maskRev_pass_index ("TABLE_BLOCK".toList) t (tableMatches t) j h⟩

theorem claim_C5_index_amended_witness :
    (1 < (mathMatches c5doc).length ∧
     (mkPh ("MATH_BLOCK".toList) 1,
      slice c5doc ((mathMatches c5doc).getD 1 (0, 0)).1
        ((mathMatches c5doc).getD 1 (0, 0)).2) ∈ (protectMathBlocks c5doc).2) ∧
    (1 < (codeMatches c5doc).length ∧
     (mkPh ("CODE_BLOCK".toList) 1,
      slice c5doc ((codeMatches c5doc).getD 1 (0, 0)).1
        ((codeMatches c5doc).getD 1 (0, 0)).2) ∈ (protectCodeBlocks c5doc).2) ∧
    (1 < (indentMatches c5doc).length ∧
     (mkPh ("INDENT_BLOCK".toList) 1,
      slice c5doc ((indentMatches c5doc).getD 1 (0, 0)).1
        ((indentMatches c5doc).getD 1 (0, 0)).2) ∈ (protectIndentBlocks c5doc).2) ∧
    (1 < (tableMatches c5doc).length ∧
     (mkPh ("TABLE_BLOCK".toList) 1,
      slice c5doc ((tableMatches c5doc).getD 1 (0, 0)).1
        ((tableMatches c5doc).getD 1 (0, 0)).2) ∈ (protectTableBlocks c5doc).2) :=
  ⟨⟨by decide, (claim_C5_index_amended c5doc 1).1 (by decide)⟩,
   ⟨by decide, (claim_C5_index_amended c5doc 1).2.1 (by decide)⟩,
   ⟨by decide, (claim_C5_index_amended c5doc 1).2.2.1 (by decide)⟩,
   ⟨by decide, (claim_C5_index_amended c5doc 1).2.2.2 (by decide)⟩⟩

/-- Claim C6.  When the scan of `_protect_html_blocks` sits on a `<` that
opens a paired tag for which `_find_complete_tag` finds no matching close,
the `<` is left unmasked — text and block map are unchanged — and the scan
resumes exactly one character later.  (The embedded functions are total,
mirroring that the Python scan raises no exception on malformed markup.) -/
theorem claim_C6_malformed (fuel : Nat) (txt : Text) (pos i : Nat) (bs : Blocks) (ctr : Nat)
    (hfind : findSubFrom txt ("<".toList) pos = some i)
    (hph : ¬ slice txt i (i + 12) = "__HTML_TAG_".toList)
    (hrun : ¬ wordRun txt (i + 1) = [])
    (hsc : selfClosingEnd txt i = none)
    (hsingle : ¬ lcText (wordRun txt (i + 1)) ∈ singleTags)
    (hfct : findCompleteTag txt i (lcText (wordRun txt (i + 1))) = none) :
    htmlScan (fuel + 1) txt pos bs ctr = htmlScan fuel txt (i + 1) bs ctr := by
  rw [htmlScan, hfind]
  simp only [hsc, hfct, if_neg hph, if_neg hrun, if_neg hsingle]

theorem claim_C6_malformed_witness :
    findSubFrom ("<div>x".toList) ("<".toList) 0 = some 0 ∧
    findCompleteTag ("<div>x".toList) 0 (lcText (wordRun ("<div>x".toList) 1)) = none ∧
    htmlScan 7 ("<div>x".toList) 0 [] 0 = htmlScan 6 ("<div>x".toList) 1 [] 0 :=
  ⟨by decide, by decide,
   claim_C6_malformed 6 ("<div>x".toList) 0 0 [] 0 (by decide) (by decide) (by decide)
     (by decide) (by decide) (by decide)⟩

/-- Claim C7.  The accumulation loop of `split_text`: for ANY accumulated
buffer `a` (single- or multi-segment) and next segment `c`, the merge is
committed exactly when the token count of their blank-line concatenation is
within the budget, and otherwise the buffer `a` is finalized and a new
buffer starts from `c`.  In particular (the spec's chunk-merge scenario), a
document of three heading segments in which the first two merge under
budget and the third would push the concatenation over budget yields the
merged unit followed by a separate unit for the third segment. -/
theorem claim_C7_merge (count : Text → Nat) (maxT overlap : Nat) :
    (∀ (rest : List Doc) (a c : Doc),
      (count (a.content ++ sepBlank ++ c.content) ≤ maxT →
        mergeLoop count maxT (c :: rest) (some a) =
          mergeLoop count maxT rest
            (some ⟨a.content ++ sepBlank ++ c.content, metaUpdate a.meta c.meta,
                   a.tokenCount⟩)) ∧
      (¬ count (a.content ++ sepBlank ++ c.content) ≤ maxT →
        mergeLoop count maxT (c :: rest) (some a) =
          a :: mergeLoop count maxT rest (some c))) ∧
    (∀ (t : Text) (s1 s2 s3 : Doc),
      headerSegs t = [s1, s2, s3] →
      count (s1.content ++ sepBlank ++ s2.content) ≤ maxT →
      ¬ count (s1.content ++ sepBlank ++ s2.content ++ sepBlank ++ s3.content) ≤ maxT →
      count s3.content ≤ maxT →
      splitText count maxT overlap t =
        [⟨s1.content ++ sepBlank ++ s2.content, metaUpdate s1.meta s2.meta,
          some (count (s1.content ++ sepBlank ++ s2.content))⟩,
         ⟨s3.content, s3.meta, some (count s3.content)⟩]) := by
  constructor
  · intro rest a c
    constructor <;> intro hm
    · rw [mergeLoop, if_pos hm]
    · rw [mergeLoop, if_neg hm]
  · intro t s1 s2 s3 hseg h12 h123 h3
    rw [splitText, hseg, mergeBuffers, mergeLoop, mergeLoop, if_pos h12]
    simp only [mergeLoop]
    rw [if_neg h123]
    have h12r : count (s1.content ++ (sepBlank ++ s2.content)) ≤ maxT := by
      rw [← List.append_assoc]; exact h12
    simp [concatMap, processChunk, h12r, h3]

theorem claim_C7_merge_witness :
    headerSegs ("# a\n# b\n# c".toList) =
      [⟨"# a".toList, [("Header 1".toList, "a".toList)], none⟩,
       ⟨"# b".toList, [("Header 1".toList, "b".toList)], none⟩,
       ⟨"# c".toList, [("Header 1".toList, "c".toList)], none⟩] ∧
    wordCount ("# a".toList ++ sepBlank ++ "# b".toList) ≤ 3 ∧
    ¬ wordCount ("# a".toList ++ sepBlank ++ "# b".toList ++ sepBlank ++ "# c".toList) ≤ 3 ∧
    wordCount ("# c".toList) ≤ 3 ∧
    splitText wordCount 3 0 ("# a\n# b\n# c".toList) =
      [⟨"# a".toList ++ sepBlank ++ "# b".toList,
        metaUpdate [("Header 1".toList, "a".toList)] [("Header 1".toList, "b".toList)],
        some (wordCount ("# a".toList ++ sepBlank ++ "# b".toList))⟩,
       ⟨"# c".toList, [("Header 1".toList, "c".toList)],
        some (wordCount ("# c".toList))⟩] ∧
    mergeLoop wordCount 3
        [⟨"# b".toList, [("Header 1".toList, "b".toList)], none⟩]
        (some ⟨"# a".toList, [("Header 1".toList, "a".toList)], none⟩) =
      mergeLoop wordCount 3 []
        (some ⟨"# a".toList ++ sepBlank ++ "# b".toList,
               metaUpdate [("Header 1".toList, "a".toList)]
                 [("Header 1".toList, "b".toList)], none⟩) ∧
    mergeLoop wordCount 3
        [⟨"# c".toList, [("Header 1".toList, "c".toList)], none⟩]
        (some ⟨"# a\n\n# b".toList, [("Header 1".toList, "b".toList)], none⟩) =
      ⟨"# a\n\n# b".toList, [("Header 1".toList, "b".toList)], none⟩ ::
        mergeLoop wordCount 3 []
          (some ⟨"# c".toList, [("Header 1".toList, "c".toList)], none⟩) :=
  ⟨by decide, by decide, by decide, by decide,
   (claim_C7_merge wordCount 3 0).2 ("# a\n# b\n# c".toList)
     ⟨"# a".toList, [("Header 1".toList, "a".toList)], none⟩
     ⟨"# b".toList, [("Header 1".toList, "b".toList)], none⟩
     ⟨"# c".toList, [("Header 1".toList, "c".toList)], none⟩
     (by decide) (by decide) (by decide) (by decide),
   ((claim_C7_merge wordCount 3 0).1 []
     ⟨"# a".toList, [("Header 1".toList, "a".toList)], none⟩
     ⟨"# b".toList, [("Header 1".toList, "b".toList)], none⟩).1 (by decide),
   ((claim_C7_merge wordCount 3 0).1 []
     ⟨"# a\n\n# b".toList, [("Header 1".toList, "b".toList)], none⟩
     ⟨"# c".toList, [("Header 1".toList, "c".toList)], none⟩).2 (by decide)⟩

/-- Claim C8 counterexample.  A second `restore` with the same block map is
NOT always a no-op: on `<p><!-- z --></p>` the first restore reinserts the
outer block together with the inner placeholder `__HTML_TAG_0__`, and the
second restore replaces that placeholder as well. -/
theorem claim_C8_counterexample :
    ¬ restoreS (protectText ("<p><!-- z --></p>".toList)).1
        (restoreS (protectText ("<p><!-- z --></p>".toList)).1
          (protectText ("<p><!-- z --></p>".toList)).2) =
      restoreS (protectText ("<p><!-- z --></p>".toList)).1
        (protectText ("<p><!-- z --></p>".toList)).2 := by
  decide

/-- Claim C8 amended.  Whenever no placeholder of the block map remains in
the output of the first restore — the situation the claim presupposes — the
second restore is a no-op. -/
theorem claim_C8_idempotent_amended (t : Text)
    (h : noPhRemains (protectText t).1
        (restoreS (protectText t).1 (protectText t).2) = true) :
    restoreS (protectText t).1 (restoreS (protectText t).1 (protectText t).2) =
      restoreS (protectText t).1 (protectText t).2 :=
  restoreS_id _ _ h

theorem claim_C8_idempotent_amended_witness :
    noPhRemains (protectText ("Text. $$a+b=c$$ more.".toList)).1
        (restoreS (protectText ("Text. $$a+b=c$$ more.".toList)).1
          (protectText ("Text. $$a+b=c$$ more.".toList)).2) = true ∧
    restoreS (protectText ("Text. $$a+b=c$$ more.".toList)).1
        (restoreS (protectText ("Text. $$a+b=c$$ more.".toList)).1
          (protectText ("Text. $$a+b=c$$ more.".toList)).2) =
      restoreS (protectText ("Text. $$a+b=c$$ more.".toList)).1
        (protectText ("Text. $$a+b=c$$ more.".toList)).2 :=
  ⟨by decide, claim_C8_idempotent_amended ("Text. $$a+b=c$$ more.".toList) (by decide)⟩

/-- Claim C9.  `protect` only assigns the six category maps, never reading
the previous state, so protecting `t2` after `t1` on the same instance
yields the same masked text, block maps and restore result as on a fresh
instance. -/
theorem claim_C9_stateless (t1 t2 : Text) :
    protectS (protectS emptyPB t1).1 t2 = protectS emptyPB t2 ∧
    restoreS (protectS (protectS emptyPB t1).1 t2).1
        ((protectS (protectS emptyPB t1).1 t2).2) =
      restoreS (protectS emptyPB t2).1 ((protectS emptyPB t2).2) :=
  ⟨rfl, rfl⟩

/-- Claim C10.  Every document returned by `split_text` carries a
`token_count` metadata entry equal to `count_tokens` of its content, so
`get_chunk_stats` never falls back to its default of 0 for these chunks. -/
theorem claim_C10_token_count (count : Text → Nat) (maxT overlap : Nat) (t : Text) :
    (∀ d ∈ splitText count maxT overlap t, d.tokenCount = some (count d.content)) ∧
    tokenCountsOf (splitText count maxT overlap t) =
      (splitText count maxT overlap t).map (fun d => count d.content) := by
  have hmem : ∀ d ∈ splitText count maxT overlap t,
      d.tokenCount = some (count d.content) := by
    intro d hd
    obtain ⟨b, _, hb⟩ := concatMap_mem _ _ d hd
    exact processChunk_stamps count maxT overlap b d hb
  refine ⟨hmem, ?_⟩
  apply List.map_congr_left
  intro d hd
  rw [hmem d hd]
  rfl

theorem claim_C10_token_count_witness :
    (⟨"a".toList, [], some 1⟩ : Doc) ∈ splitText charCount 10 0 ("a".toList) ∧
    (⟨"a".toList, [], some 1⟩ : Doc).tokenCount = some (charCount ("a".toList)) :=
  ⟨by decide,
   (claim_C10_token_count charCount 10 0 ("a".toList)).1 _ (by decide)⟩

end MdT
